import Mathlib

/-!
Verification of the opytimizer optimization engine against its specification.

The development shallowly embeds the Python sources under `src/`:
`opytimizer/core/optimizer.py` (the abstract `Optimizer` with `_build`,
`_update`, `_evaluate`), `opytimizer/optimizers/science/gsa.py` (GSA),
`opytimizer/optimizers/swarm/ba.py` (BA) and
`opytimizer/optimizers/swarm/sbo.py` (SBO).

Real arithmetic is modelled with `ℚ`; `numpy` arrays become `List ℚ`
(elementwise broadcasting spelled out); Python exceptions become
`Except PyErr`.  Random draws (`opytimizer.math.random`, not under `src/`)
are modelled as explicit stream parameters with the ranges the spec gives
them (uniform in `[0,1)`), and `np.exp` as an explicit function parameter.
The `Agent` / space / history data model (`core/agent.py`, the space class
used by the run loops, and `utils/history.py` are not under `src/`) is
modelled from the spec where noted.
-/

namespace Opyt

/-- Modelled from the spec: `core/agent.py` is not under `src/`.  An Agent
carries a position (flattened `n_variables × n_dimensions` components), a
scalar fitness (lower is better) and its own copies of the bounds used for
self-contained clipping. -/
structure Agent where
  position : List ℚ
  fit : ℚ
  lb : List ℚ := []
  ub : List ℚ := []
deriving Repr, DecidableEq

/-- Python exceptions raised by the embedded code. -/
inductive PyErr where
  | typeError (msg : String)
  | valueError (msg : String)
  | notImplementedError
  | attributeError (msg : String)
  | indexError
  | zeroDivisionError
deriving Repr, DecidableEq

/-! ## Optimizer._evaluate (optimizer.py, lines 116-137) -/

/-- One pass of the loop body of `Optimizer._evaluate` for a single agent
(optimizer.py lines 129-137): the agent's fit is set to
`function(agent.position)` and, when it strictly improves on the current
best fitness, the best agent receives a (deep) copy of the agent's position
and fitness. -/
def evaluateStep (function : List ℚ → ℚ) (best : Agent) (agent : Agent) :
    Agent × Agent :=
  let agent := { agent with fit := function agent.position }
  if agent.fit < best.fit then
    (agent, { best with position := agent.position, fit := agent.fit })
  else
    (agent, best)

/-- `Optimizer._evaluate` over the whole population: iterates through all
agents in order, threading the running best agent (the best is overwritten
mid-loop, so later agents compare against the updated best exactly as the
Python loop does).  The pre-evaluation hook (from `utils/decorator.py`, not
under `src/`) is modelled from the spec as running before this loop and
not taking part in the per-agent computation. -/
def evaluateAgents (function : List ℚ → ℚ) :
    List Agent → Agent → List Agent × Agent
  | [], best => ([], best)
  | a :: rest, best =>
    let step := evaluateStep function best a
    let tail := evaluateAgents function rest step.2
    (step.1 :: tail.1, tail.2)

theorem evaluateStep_fit_le (function : List ℚ → ℚ) (best agent : Agent) :
    (evaluateStep function best agent).2.fit ≤ best.fit := by
  unfold evaluateStep
  by_cases h : function agent.position < best.fit
  · simp [h, le_of_lt h]
  · simp [h]

theorem evaluateAgents_fit_le (function : List ℚ → ℚ) (agents : List Agent)
    (best : Agent) :
    (evaluateAgents function agents best).2.fit ≤ best.fit := by
  induction agents generalizing best with
  | nil => simp [evaluateAgents]
  | cons a rest ih =>
      calc (evaluateAgents function (a :: rest) best).2.fit
          ≤ (evaluateStep function best a).2.fit := ih _
        _ ≤ best.fit := evaluateStep_fit_le function best a

theorem evaluateAgents_positions (function : List ℚ → ℚ)
    (agents : List Agent) (best : Agent) :
    (evaluateAgents function agents best).1 =
      agents.map (fun a => { a with fit := function a.position }) := by
  induction agents generalizing best with
  | nil => simp [evaluateAgents]
  | cons a rest ih =>
      simp only [evaluateAgents, List.map_cons, ih]
      unfold evaluateStep
      by_cases h : function a.position < best.fit <;> simp [h]

/-- C1.  For every call to the evaluate routine: each agent's fit is set to
`function(agent.position)` (and nothing else about the agent changes), the
running best agent is replaced by a copy of the agent's position and fitness
exactly when `agent.fit < best_agent.fit` (strict improvement, lower is
better), and consequently the best fitness after the call is at most the
best fitness before it — so `best_agent.fit` is monotonically non-increasing
across evaluate calls and hence across the iterations of a run. -/
theorem C1_evaluate_sets_fit_and_best_is_monotone
    (function : List ℚ → ℚ) (agents : List Agent) (best agent : Agent) :
    ((evaluateAgents function agents best).1 =
        agents.map (fun a => { a with fit := function a.position })) ∧
    (function agent.position < best.fit →
        evaluateStep function best agent =
          ({ agent with fit := function agent.position },
           { best with position := agent.position,
                       fit := function agent.position })) ∧
    (¬ function agent.position < best.fit →
        evaluateStep function best agent =
          ({ agent with fit := function agent.position }, best)) ∧
    ((evaluateAgents function agents best).2.fit ≤ best.fit) := by
  refine ⟨evaluateAgents_positions function agents best, ?_, ?_,
    evaluateAgents_fit_le function agents best⟩
  · intro h
    simp [evaluateStep, h]
  · intro h
    simp [evaluateStep, h]

/-- Witness for C1 at a concrete input: the objective is the sum of the
position components; agent `⟨[1], 0⟩` evaluates to fit `1`, strictly better
than the best fitness `5`, so the best agent is replaced by a copy. -/
theorem C1_witness :
    evaluateStep (fun p => p.sum) ⟨[9], 5, [], []⟩ ⟨[1], 0, [], []⟩ =
      (⟨[1], 1, [], []⟩, ⟨[1], 1, [], []⟩) := by
  have h := (C1_evaluate_sets_fit_and_best_is_monotone (fun p => p.sum) []
    ⟨[9], 5, [], []⟩ ⟨[1], 0, [], []⟩).2.1 (by norm_num)
  simpa using h

/-! ## Optimizer._build (optimizer.py, lines 55-95) and the hyperparameter
property setters of the concrete subclasses (gsa.py lines 59-66,
sbo.py lines 64-105) -/

/-- A fragment of the Python value universe, enough for hyperparameter
dictionaries.  `pbool` is numeric for `isinstance(x, (float, int))`
because Python's `bool` is a subclass of `int`. -/
inductive PVal where
  | pnone
  | pbool (b : Bool)
  | pint (n : ℤ)
  | pfloat (q : ℚ)
  | pstr (s : String)
  | pdict (entries : List (String × PVal))

/-- Numeric value of a Python object, when `isinstance(x, (float, int))`
holds (booleans included, `True = 1`, `False = 0`). -/
def PVal.asNum : PVal → Option ℚ
  | .pbool b => some (if b then 1 else 0)
  | .pint n => some (n : ℚ)
  | .pfloat q => some q
  | _ => none

/-- Applies `setattr(self, k, v)` for every entry of the hyperparameter
dictionary, in order, stopping at the first exception (optimizer.py
lines 88-92).  The per-class attribute semantics is the `setAttr`
argument. -/
def applyHyperparams {σ : Type} (setAttr : σ → String → PVal → Except PyErr σ) :
    σ → List (String × PVal) → Except PyErr σ
  | st, [] => .ok st
  | st, (k, v) :: rest =>
    match setAttr st k v with
    | .error err => .error err
    | .ok st => applyHyperparams setAttr st rest

/-- Attribute state of a `GSA` instance after `__init__` has set the
default gravity (gsa.py line 44).  `extra` holds plain attributes set by
`setattr` for keys with no property setter. -/
structure GSAParams where
  G : ℚ := 2467 / 1000
  hyperparams : Option (List (String × PVal)) := none
  built : Bool := false
  extra : List (String × PVal) := []

/-- `setattr` on a `GSA` instance: the key `G` goes through the `G`
property setter (gsa.py lines 59-66: type error unless float or int,
value error when negative); any other key becomes a plain attribute. -/
def gsaSetAttr (st : GSAParams) (k : String) (v : PVal) :
    Except PyErr GSAParams :=
  if k = "G" then
    match v.asNum with
    | none => .error (.typeError "`G` should be a float or integer")
    | some q =>
      if q < 0 then .error (.valueError "`G` should be >= 0")
      else .ok { st with G := q }
  else
    .ok { st with extra := st.extra ++ [(k, v)] }

/-- `Optimizer._build` (optimizer.py lines 74-95) specialised to a `GSA`
instance: first the `hyperparams` property setter (lines 55-60, type error
unless a dictionary or `None`), then — when the dictionary is truthy —
`setattr` for every entry, then `built := true`. -/
def gsaBuild (st : GSAParams) (hyperparams : PVal) : Except PyErr GSAParams :=
  match hyperparams with
  | .pnone => .ok { st with hyperparams := none, built := true }
  | .pdict entries =>
    let st := { st with hyperparams := some entries }
    match applyHyperparams gsaSetAttr st entries with
    | .error err => .error err
    | .ok st => .ok { st with built := true }
  | _ => .error (.typeError "`hyperparams` should be a dictionary")

/-- Attribute state of an `SBO` instance after `__init__` has set the
defaults (sbo.py lines 42-49). -/
structure SBOParams where
  alpha : ℚ := 9 / 10
  p_mutation : ℚ := 1 / 20
  z : ℚ := 1 / 50
  hyperparams : Option (List (String × PVal)) := none
  built : Bool := false
  extra : List (String × PVal) := []

/-- `setattr` on an `SBO` instance: `alpha` must be a non-negative number,
`p_mutation` and `z` must be numbers in `[0, 1]` (sbo.py lines 64-105). -/
def sboSetAttr (st : SBOParams) (k : String) (v : PVal) :
    Except PyErr SBOParams :=
  if k = "alpha" then
    match v.asNum with
    | none => .error (.typeError "`alpha` should be a float or integer")
    | some q =>
      if q < 0 then .error (.valueError "`alpha` should be >= 0")
      else .ok { st with alpha := q }
  else if k = "p_mutation" then
    match v.asNum with
    | none => .error (.typeError "`p_mutation` should be a float or integer")
    | some q =>
      if q < 0 ∨ q > 1 then
        .error (.valueError "`p_mutation` should be between 0 and 1")
      else .ok { st with p_mutation := q }
  else if k = "z" then
    match v.asNum with
    | none => .error (.typeError "`z` should be a float or integer")
    | some q =>
      if q < 0 ∨ q > 1 then
        .error (.valueError "`z` should be between 0 and 1")
      else .ok { st with z := q }
  else
    .ok { st with extra := st.extra ++ [(k, v)] }

/-- `Optimizer._build` specialised to an `SBO` instance. -/
def sboBuild (st : SBOParams) (hyperparams : PVal) : Except PyErr SBOParams :=
  match hyperparams with
  | .pnone => .ok { st with hyperparams := none, built := true }
  | .pdict entries =>
    let st := { st with hyperparams := some entries }
    match applyHyperparams sboSetAttr st entries with
    | .error err => .error err
    | .ok st => .ok { st with built := true }
  | _ => .error (.typeError "`hyperparams` should be a dictionary")

/-- C4 counterexample.  The claim says a type error is raised if and only
if the supplied hyperparameters object is neither a mapping nor `None`, and
that the subclass setters raise only value errors.  But the `G` property
setter raises a type error for a mistyped value, so `_build` on the mapping
`{"G": "a"}` raises a type error even though a mapping was supplied: the
"only if" direction of the claim is false. -/
theorem C4_counterexample :
    gsaBuild {} (PVal.pdict [("G", PVal.pstr "a")]) =
      .error (.typeError "`G` should be a float or integer") := rfl

/-- C4 as amended.  `_build` raises a type error from the `hyperparams`
validation exactly when the supplied object is neither a mapping nor
`None`; a `None` just sets `built`; for a mapping, every key is applied as
an attribute through the subclass property setters — which raise a type
error on mistyped values and a value error on out-of-range values (for
example a negative `G`, or a `p_mutation` outside `[0, 1]`) — and when no
setter raises, `built` is set to true. -/
theorem C4_build_validates_and_sets_built
    (st : GSAParams) (h : PVal) :
    ((∀ entries, h ≠ .pdict entries) → h ≠ .pnone →
        gsaBuild st h =
          .error (.typeError "`hyperparams` should be a dictionary")) ∧
    (gsaBuild st .pnone = .ok { st with hyperparams := none, built := true }) ∧
    (gsaBuild {} (.pdict [("G", .pfloat 5)]) =
        .ok { G := 5, hyperparams := some [("G", .pfloat 5)], built := true }) ∧
    (gsaBuild {} (.pdict [("G", .pfloat (-1))]) =
        .error (.valueError "`G` should be >= 0")) ∧
    (sboBuild {} (.pdict [("p_mutation", .pfloat 2)]) =
        .error (.valueError "`p_mutation` should be between 0 and 1")) := by
  refine ⟨?_, rfl, ?_, ?_, ?_⟩
  · intro hdict hnone
    cases h with
    | pnone => exact absurd rfl hnone
    | pdict entries => exact absurd rfl (hdict entries)
    | pbool b => rfl
    | pint n => rfl
    | pfloat q => rfl
    | pstr s => rfl
  · rfl
  · rfl
  · rfl

/-- Witness for C4: the amended theorem applied at the non-mapping,
non-`None` input `"x"`, whose hypotheses hold by case analysis. -/
theorem C4_witness :
    gsaBuild {} (PVal.pstr "x") =
      .error (.typeError "`hyperparams` should be a dictionary") :=
  (C4_build_validates_and_sets_built {} (PVal.pstr "x")).1
    (fun _ h => PVal.noConfusion h) (fun h => PVal.noConfusion h)

/-! ## GSA: sorting, gravity schedule and mass calculation
(gsa.py, lines 68-88 and 153-181) -/

instance : IsTotal Agent (fun a b => a.fit ≤ b.fit) :=
  ⟨fun a b => le_total a.fit b.fit⟩

instance : IsTrans Agent (fun a b => a.fit ≤ b.fit) :=
  ⟨fun _ _ _ => le_trans⟩

/-- `agents.sort(key := fit)` (gsa.py line 164): a stable sort of the
agents by fitness, ascending. -/
def sortByFit (agents : List Agent) : List Agent :=
  List.insertionSort (fun a b => a.fit ≤ b.fit) agents

/-- The gravity schedule of `GSA.update` (gsa.py line 167):
`G / (iteration + 1)`. -/
def gsaGravity (G : ℚ) (iteration : ℕ) : ℚ := G / (iteration + 1)

/-- `GSA._calculate_mass` (gsa.py lines 68-88) on the list of fitness
values: `best` is the first and `worst` the last fitness, each raw mass is
`(fit - worst) / (best - worst)`, and the result is the raw masses divided
by their sum.  Neither division is guarded in the source; a zero divisor is
modelled as a raised `ZeroDivisionError`, and an empty population as the
`IndexError` that `agents[0]` raises. -/
def calculate_mass (fits : List ℚ) : Except PyErr (List ℚ) :=
  match fits.head?, fits.getLast? with
  | some best, some worst =>
    if best - worst = 0 then .error .zeroDivisionError
    else
      let mass := fits.map (fun fit => (fit - worst) / (best - worst))
      if mass.sum = 0 then .error .zeroDivisionError
      else .ok (mass.map (fun m => m / mass.sum))
  | _, _ => .error .indexError

/-- The first phase of `GSA.update` (gsa.py lines 163-170): sort the agents
by fitness ascending, compute the decayed gravity, compute the normalized
masses of the sorted agents. -/
def gsaUpdateSortAndMass (G : ℚ) (agents : List Agent) (iteration : ℕ) :
    Except PyErr (List Agent × ℚ × List ℚ) :=
  let sorted := sortByFit agents
  let gravity := gsaGravity G iteration
  (calculate_mass (sorted.map Agent.fit)).map (fun mass => (sorted, gravity, mass))

theorem sum_map_div (l : List ℚ) (s : ℚ) :
    (l.map (fun x => x / s)).sum = l.sum / s := by
  induction l with
  | nil => simp
  | cons a t ih => simp [ih, add_div]

/-- Success characterization of `calculate_mass`: whenever it returns a
list, that list consists of the raw masses `(fit - worst) / (best - worst)`
divided by their sum, and it sums to 1. -/
theorem calculate_mass_ok (fits m : List ℚ)
    (h : calculate_mass fits = .ok m) :
    ∃ best worst,
      fits.head? = some best ∧ fits.getLast? = some worst ∧
      m = (fits.map (fun fit => (fit - worst) / (best - worst))).map
            (fun mass =>
              mass / (fits.map (fun fit => (fit - worst) / (best - worst))).sum) ∧
      m.sum = 1 := by
  unfold calculate_mass at h
  cases hh : fits.head? with
  | none => rw [hh] at h; cases hl : fits.getLast? <;> rw [hl] at h <;> exact absurd h (by simp)
  | some best =>
    cases hl : fits.getLast? with
    | none => rw [hh, hl] at h; exact absurd h (by simp)
    | some worst =>
      rw [hh, hl] at h
      dsimp only at h
      by_cases hd : best - worst = 0
      · rw [if_pos hd] at h; exact absurd h (by simp)
      rw [if_neg hd] at h
      by_cases hs : (fits.map (fun fit => (fit - worst) / (best - worst))).sum = 0
      · rw [if_pos hs] at h; exact absurd h (by simp)
      rw [if_neg hs] at h
      refine ⟨best, worst, rfl, rfl, ?_, ?_⟩
      · exact (Except.ok.injEq _ _ ▸ h).symm
      · have hm : m = (fits.map (fun fit => (fit - worst) / (best - worst))).map
            (fun mass =>
              mass / (fits.map (fun fit => (fit - worst) / (best - worst))).sum) :=
          (Except.ok.injEq _ _ ▸ h).symm
        rw [hm, sum_map_div, div_self hs]

/-- C5.  `GSA.update` first sorts the agents by fitness ascending (the
sorted list is pairwise non-decreasing in fit), uses the decayed gravity
`G / (iteration + 1)`, and computes each agent's mass as
`(fit - worst) / (best - worst)` — `best` the first and `worst` the last
fitness after sorting — renormalized by the sum of the raw masses; for two
agents of fitness `10` and `0` the zero-fitness agent sorts first and its
mass is `((0 - 10) / (0 - 10)) / 1 = 1`. -/
theorem C5_gsa_sorts_gravity_and_mass (agents : List Agent) (G : ℚ)
    (t : ℕ) (fits m : List ℚ) :
    List.Sorted (fun a b => a.fit ≤ b.fit) (sortByFit agents) ∧
    gsaGravity G t = G / (t + 1) ∧
    (calculate_mass fits = .ok m →
      ∃ best worst,
        fits.head? = some best ∧ fits.getLast? = some worst ∧
        m = (fits.map (fun fit => (fit - worst) / (best - worst))).map
              (fun mass =>
                mass /
                  (fits.map (fun fit => (fit - worst) / (best - worst))).sum) ∧
        m.sum = 1) ∧
    gsaUpdateSortAndMass 2 [⟨[1], 10, [], []⟩, ⟨[2], 0, [], []⟩] 0 =
      .ok ([⟨[2], 0, [], []⟩, ⟨[1], 10, [], []⟩], 2, [1, 0]) := by
  refine ⟨List.sorted_insertionSort _ agents, rfl,
    calculate_mass_ok fits m, ?_⟩
  norm_num [gsaUpdateSortAndMass, sortByFit, gsaGravity, calculate_mass,
    List.insertionSort, List.orderedInsert, Except.map]

/-- Witness for C5 at a concrete input: `calculate_mass` on the sorted
fitness list `[0, 10]` succeeds with masses `[1, 0]`, which indeed take the
claimed normalized form and sum to 1. -/
theorem C5_witness :
    [(0 : ℚ), 10].head? = some 0 ∧ [(0 : ℚ), 10].getLast? = some 10 ∧
    ([1, 0] : List ℚ) =
      (([(0 : ℚ), 10].map (fun fit => (fit - 10) / (0 - 10))).map
        (fun mass =>
          mass / (([(0 : ℚ), 10].map (fun fit => (fit - 10) / (0 - 10)))).sum)) ∧
    ([1, 0] : List ℚ).sum = 1 := by
  have h := (C5_gsa_sorts_gravity_and_mass [] 2 0 [0, 10] [1, 0]).2.2.1
    (by norm_num [calculate_mass])
  obtain ⟨best, worst, hb, hw, hm, hs⟩ := h
  have hb0 : best = 0 := by simpa using hb.symm
  have hw10 : worst = 10 := by simpa using hw.symm
  subst hb0 hw10
  exact ⟨hb, hw, hm, hs⟩

/-- C10.  `GSA._calculate_mass` divides by `best - worst` and then by the
sum of the raw masses, with no guard on either divisor.  When every agent
has the same fitness (a nonempty population), `best - worst = 0` and the
computation divides by zero; when the fitness list is sorted (as
`GSA.update` guarantees, `best` being its minimum and `worst` its maximum)
and best and worst differ, both divisors are nonzero and the computation
succeeds. -/
theorem C10_mass_needs_distinct_best_worst (fits : List ℚ) (q best worst : ℚ) :
    (fits ≠ [] → (∀ x ∈ fits, x = q) →
        calculate_mass fits = .error .zeroDivisionError) ∧
    (fits.head? = some best → fits.getLast? = some worst → best ≠ worst →
        (∀ x ∈ fits, best ≤ x ∧ x ≤ worst) →
        ∃ m, calculate_mass fits = .ok m) := by
  constructor
  · intro hne hall
    obtain ⟨a, t, rfl⟩ := List.exists_cons_of_ne_nil hne
    have ha : a = q := hall a (List.mem_cons_self a t)
    have hlast : (a :: t).getLast? = some q := by
      rw [List.getLast?_eq_getLast _ (List.cons_ne_nil a t)]
      exact congrArg some (hall _ (List.getLast_mem _))
    unfold calculate_mass
    rw [List.head?_cons, hlast, ha]
    simp
  · intro hh hl hne hbound
    obtain ⟨a, t, rfl⟩ : ∃ a t, fits = a :: t := by
      cases fits with
      | nil => simp at hh
      | cons a t => exact ⟨a, t, rfl⟩
    have ha : a = best := by simpa using hh
    subst ha
    have hlt : a < worst :=
      lt_of_le_of_ne (hbound a (List.mem_cons_self a t)).2 hne
    have hdiv : a - worst ≠ 0 := sub_ne_zero.mpr hne
    have hneg : a - worst < 0 := sub_neg.mpr hlt
    have hfirst : (a - worst) / (a - worst) = 1 := div_self hdiv
    have hnonneg : ∀ x ∈ a :: t, 0 ≤ (x - worst) / (a - worst) := by
      intro x hx
      exact div_nonneg_iff.mpr
        (Or.inr ⟨sub_nonpos.mpr (hbound x hx).2, hneg.le⟩)
    have htail : 0 ≤ (t.map (fun x => (x - worst) / (a - worst))).sum := by
      refine List.sum_nonneg ?_
      intro x hx
      obtain ⟨y, hy, rfl⟩ := List.mem_map.mp hx
      exact hnonneg y (List.mem_cons_of_mem _ hy)
    have hsum :
        ((a :: t).map (fun x => (x - worst) / (a - worst))).sum ≠ 0 := by
      have h1 : ((a :: t).map (fun x => (x - worst) / (a - worst))).sum =
          1 + (t.map (fun x => (x - worst) / (a - worst))).sum := by
        simp [hfirst]
      rw [h1]
      exact ne_of_gt (by linarith)
    refine ⟨((a :: t).map (fun x => (x - worst) / (a - worst))).map
      (fun mass =>
        mass / ((a :: t).map (fun x => (x - worst) / (a - worst))).sum), ?_⟩
    unfold calculate_mass
    rw [List.head?_cons, hl]
    dsimp only
    rw [if_neg hdiv, if_neg hsum]

/-- Witness for C10: the all-equal fitness list `[5, 5]` raises a division
by zero, and the sorted list `[0, 10]` (distinct best and worst) succeeds. -/
theorem C10_witness :
    calculate_mass [5, 5] = .error .zeroDivisionError ∧
    ∃ m, calculate_mass [0, 10] = .ok m :=
  ⟨(C10_mass_needs_distinct_best_worst [5, 5] 5 0 10).1 (by decide)
      (by decide),
   (C10_mass_needs_distinct_best_worst [0, 10] 0 0 10).2 rfl
      rfl (by norm_num) (by decide)⟩

/-! ## SBO: fitness-to-probability conversion (sbo.py, lines 107-125) -/

/-- The per-agent selection weight of `SBO.update` (sbo.py line 119):
`1 / (1 + fit)` when `fit >= 0`, else `1 + |fit|`. -/
def sboFitWeight (fit : ℚ) : ℚ :=
  if 0 ≤ fit then 1 / (1 + fit) else 1 + |fit|

/-- `total_fitness = np.sum(fitness)` (sbo.py line 122). -/
def sboTotalFitness (agents : List Agent) : ℚ :=
  (agents.map (fun a => sboFitWeight a.fit)).sum

/-- The probability of each agent (sbo.py line 125):
`probs = [fit / total_fitness for fit in fitness]`. -/
def sboProbs (agents : List Agent) : List ℚ :=
  (agents.map (fun a => sboFitWeight a.fit)).map
    (fun w => w / sboTotalFitness agents)

theorem sboFitWeight_pos (fit : ℚ) : 0 < sboFitWeight fit := by
  unfold sboFitWeight
  by_cases h : 0 ≤ fit
  · rw [if_pos h]
    positivity
  · rw [if_neg h]
    have := abs_nonneg fit
    linarith

theorem sboTotalFitness_pos (agents : List Agent) (h : agents ≠ []) :
    0 < sboTotalFitness agents := by
  refine List.sum_pos _ ?_ (by simpa using h)
  intro x hx
  obtain ⟨a, _, rfl⟩ := List.mem_map.mp hx
  exact sboFitWeight_pos a.fit

/-- C6.  `SBO.update` converts each agent fitness to a positive selection
weight — `1 / (1 + fit)` when `fit ≥ 0` and `1 + |fit|` otherwise — and
divides the weights by their sum, producing a probability distribution over
the agents (nonnegative entries summing to 1 whenever the population is
nonempty); for three agents of fitness `1` the distribution is the uniform
`[1/3, 1/3, 1/3]`. -/
theorem C6_sbo_probability_distribution (agents : List Agent) (fit : ℚ) :
    (sboFitWeight fit = if 0 ≤ fit then 1 / (1 + fit) else 1 + |fit|) ∧
    (0 < sboFitWeight fit) ∧
    (agents ≠ [] →
      (∀ p ∈ sboProbs agents, 0 ≤ p) ∧ (sboProbs agents).sum = 1) ∧
    sboProbs [⟨[1], 1, [], []⟩, ⟨[2], 1, [], []⟩, ⟨[3], 1, [], []⟩] =
      [1/3, 1/3, 1/3] := by
  refine ⟨rfl, sboFitWeight_pos fit, ?_, ?_⟩
  · intro hne
    constructor
    · intro p hp
      obtain ⟨w, hw, rfl⟩ := List.mem_map.mp hp
      obtain ⟨a, _, rfl⟩ := List.mem_map.mp hw
      exact div_nonneg (sboFitWeight_pos a.fit).le
        (sboTotalFitness_pos agents hne).le
    · unfold sboProbs
      rw [sum_map_div]
      exact div_self (ne_of_gt (sboTotalFitness_pos agents hne))
  · norm_num [sboProbs, sboTotalFitness, sboFitWeight]

/-- Witness for C6: the three-agent population of fitness `1` is nonempty,
and its probability vector is nonnegative and sums to 1. -/
theorem C6_witness :
    (∀ p ∈ sboProbs [⟨[1], 1, [], []⟩, ⟨[2], 1, [], []⟩, ⟨[3], 1, [], []⟩],
        0 ≤ p) ∧
    (sboProbs [⟨[1], 1, [], []⟩, ⟨[2], 1, [], []⟩, ⟨[3], 1, [], []⟩]).sum = 1 :=
  (C6_sbo_probability_distribution
    [⟨[1], 1, [], []⟩, ⟨[2], 1, [], []⟩, ⟨[3], 1, [], []⟩] 0).2.2.1
    (by simp)

/-! ## BA: frequency update (ba.py, lines 130-149) -/

/-- `BA._update_frequency` (ba.py lines 130-149) with the uniform draw
`beta` made explicit: `min_frequency + (min_frequency - max_frequency) *
beta`.  The source's comment records that `(min - max)` rather than
`(max - min)` is deliberate.  The draw comes from
`opytimizer.math.random.generate_uniform_random_number`, which is not under
`src/` and is modelled from the spec as uniform on `[0, 1)`. -/
def update_frequency (min_frequency max_frequency beta : ℚ) : ℚ :=
  min_frequency + (min_frequency - max_frequency) * beta

/-- C7.  The per-agent frequency update returns
`f_min + (f_min - f_max) * beta`; for `f_max > f_min` and `beta` in
`[0, 1)` the drawn frequency always lies in the half-open interval
`(f_min - (f_max - f_min), f_min]`. -/
theorem C7_ba_frequency_interval (f_min f_max beta : ℚ) :
    (update_frequency f_min f_max beta =
      f_min + (f_min - f_max) * beta) ∧
    (0 ≤ beta → beta < 1 → f_min < f_max →
      f_min - (f_max - f_min) < update_frequency f_min f_max beta ∧
      update_frequency f_min f_max beta ≤ f_min) := by
  refine ⟨rfl, ?_⟩
  intro h0 h1 hlt
  unfold update_frequency
  constructor
  · nlinarith
  · nlinarith

/-- Witness for C7: with `f_min = 0`, `f_max = 2`, `beta = 1/2` the drawn
frequency is `-1`, inside `(-2, 0]`. -/
theorem C7_witness :
    ((0 : ℚ) - (2 - 0) < update_frequency 0 2 (1/2) ∧
      update_frequency 0 2 (1/2) ≤ 0) :=
  (C7_ba_frequency_interval 0 2 (1/2)).2 (by norm_num) (by norm_num)
    (by norm_num)

/-! ## BA: full update over all agents (ba.py, lines 187-243) -/

/-- Attribute state of a `BA` instance after `__init__` has set the
defaults (ba.py lines 44-53). -/
structure BAConfig where
  f_min : ℚ := 0
  f_max : ℚ := 2
  A : ℚ := 1 / 2
  r : ℚ := 1 / 2

/-- Elementwise vector sum (numpy broadcasting on position arrays). -/
def addVec (x y : List ℚ) : List ℚ := (x.zip y).map (fun p => p.1 + p.2)

/-- Elementwise vector difference. -/
def subVec (x y : List ℚ) : List ℚ := (x.zip y).map (fun p => p.1 - p.2)

/-- Scalar times vector. -/
def smulVec (c : ℚ) (x : List ℚ) : List ℚ := x.map (fun v => c * v)

/-- `np.mean` of a one-dimensional array. -/
def meanQ (l : List ℚ) : ℚ := l.sum / l.length

/-- Elementwise clamp of a position into `[lb, ub]`. -/
def clipVec (lb ub x : List ℚ) : List ℚ :=
  (x.zip (lb.zip ub)).map (fun p => min p.2.2 (max p.2.1 p.1))

/-- Modelled from the spec: `Agent.clip_by_bound` (from `core/agent.py`,
not under `src/`) clamps every position component into the agent's own
`[lb, ub]`. -/
def Agent.clip_by_bound (a : Agent) : Agent :=
  { a with position := clipVec a.lb a.ub a.position }

/-- Modelled from the spec: the search-space object consumed by the run
loops — a fixed population, the distinguished best agent, the size fields
and the global bounds (the concrete space class is not under `src/`;
`core/search_space.py` under `src/` is an older construction-only shim
without these members). -/
structure Space where
  agents : List Agent
  best_agent : Agent
  n_agents : ℕ := 0
  n_variables : ℕ := 0
  n_dimensions : ℕ := 1
  n_iterations : ℕ := 0
  lb : List ℚ := []
  ub : List ℚ := []

/-- The mutable state threaded through `BA.update`: the population, the
four per-agent auxiliary arrays, and the local variable `best_agent`
(rebinding it inside the loop changes only this local, never the caller's
object). -/
structure BAState where
  agents : List Agent
  frequency : List ℚ
  velocity : List (List ℚ)
  loudness : List ℚ
  pulse_rate : List ℚ
  localBest : Agent

/-- The outcome of one pass of the `BA.update` loop body for one agent. -/
structure BAStepOut where
  agent : Agent
  frequency : ℚ
  velocity : List ℚ
  loudness : ℚ
  pulse_rate : ℚ
  localBest : Agent
  tookWalk : Bool

/-- One pass of the `BA.update` loop body (ba.py lines 206-243) for agent
`i`, with the three random draws (`beta` for the frequency, uniform `p`,
gaussian `e`) and `np.exp` passed in explicitly: update frequency, velocity
and position; with `p > pulse_rate[i]` overwrite the position with a local
random walk around the local best scaled by the mean loudness; clip and
re-evaluate the agent; and when `p < loudness[i]` and the new fit beats the
local best's, rebind the local best to (a deep copy of) the agent and write
the pulse-rate and loudness schedules. -/
def baAgentStep (cfg : BAConfig) (f : List ℚ → ℚ) (expQ : ℚ → ℚ)
    (iteration : ℕ) (beta p e meanLoudness : ℚ) (localBest : Agent)
    (agent : Agent) (vel_i : List ℚ) (loud_i pulse_i : ℚ) : BAStepOut :=
  let alpha : ℚ := 9 / 10
  let freq := update_frequency cfg.f_min cfg.f_max beta
  let vel := addVec vel_i (smulVec freq (subVec agent.position localBest.position))
  let pos := addVec agent.position vel
  let tookWalk := decide (pulse_i < p)
  let pos := if tookWalk then
      localBest.position.map (fun c => c + 1 / 1000 * e * meanLoudness)
    else pos
  let agent := ({ agent with position := pos } : Agent).clip_by_bound
  let agent := { agent with fit := f agent.position }
  let improved := p < loud_i ∧ agent.fit < localBest.fit
  { agent := agent, frequency := freq, velocity := vel,
    loudness := if improved then cfg.A * alpha else loud_i,
    pulse_rate :=
      if improved then cfg.r * (1 - expQ (-(alpha * iteration))) else pulse_i,
    localBest := if improved then agent else localBest,
    tookWalk := tookWalk }

/-- The loop body of `BA.update` at index `i`, acting on the whole state:
reads the agent and the `i`-th entries of the auxiliary arrays (an
out-of-range index reads nothing, as the Python loop over `agents` never
produces one), runs the per-agent pass with the mean of the current
loudness array, and writes back index `i` of each array (only the local
`best_agent` is rebound).  Also reports whether the local-random-walk
branch was taken. -/
def baIndexStep (cfg : BAConfig) (f : List ℚ → ℚ) (expQ : ℚ → ℚ)
    (iteration : ℕ) (beta p e : ℕ → ℚ) (st : BAState) (i : ℕ) :
    BAState × Option Bool :=
  match st.agents[i]?, st.velocity[i]?, st.loudness[i]?, st.pulse_rate[i]? with
  | some agent, some vel_i, some loud_i, some pulse_i =>
    let out := baAgentStep cfg f expQ iteration (beta i) (p i) (e i)
      (meanQ st.loudness) st.localBest agent vel_i loud_i pulse_i
    ({ agents := st.agents.set i out.agent,
       frequency := st.frequency.set i out.frequency,
       velocity := st.velocity.set i out.velocity,
       loudness := st.loudness.set i out.loudness,
       pulse_rate := st.pulse_rate.set i out.pulse_rate,
       localBest := out.localBest }, some out.tookWalk)
  | _, _, _, _ => (st, none)

/-- Runs the `BA.update` loop from index `i` for `n` more agents,
accumulating the walk flags. -/
def baUpdateFrom (cfg : BAConfig) (f : List ℚ → ℚ) (expQ : ℚ → ℚ)
    (iteration : ℕ) (beta p e : ℕ → ℚ) :
    BAState → List Bool → ℕ → ℕ → BAState × List Bool
  | st, walks, _, 0 => (st, walks)
  | st, walks, i, n + 1 =>
    let step := baIndexStep cfg f expQ iteration beta p e st i
    baUpdateFrom cfg f expQ iteration beta p e step.1
      (walks ++ step.2.toList) (i + 1) n

/-- `BA.update` (ba.py lines 187-243): the loop
`for i, agent in enumerate(agents)` over the whole population. -/
def baUpdate (cfg : BAConfig) (f : List ℚ → ℚ) (expQ : ℚ → ℚ)
    (iteration : ℕ) (beta p e : ℕ → ℚ) (st : BAState) :
    BAState × List Bool :=
  baUpdateFrom cfg f expQ iteration beta p e st [] 0 st.agents.length

/-- The call `self.update(space.agents, space.best_agent, function, t,
frequency, velocity, loudness, pulse_rate)` as the run loop performs it
(ba.py line 278, modulo the `_update` dispatch handled separately): the
local `best_agent` starts as the space's best agent, the population and the
auxiliary arrays are mutated in place, and the space keeps its own
`best_agent` object. -/
def ba_update_on_space (cfg : BAConfig) (f : List ℚ → ℚ) (expQ : ℚ → ℚ)
    (iteration : ℕ) (beta p e : ℕ → ℚ) (space : Space)
    (frequency : List ℚ) (velocity : List (List ℚ))
    (loudness pulse_rate : List ℚ) : Space × BAState × List Bool :=
  let st : BAState :=
    { agents := space.agents, frequency := frequency, velocity := velocity,
      loudness := loudness, pulse_rate := pulse_rate,
      localBest := space.best_agent }
  let res := baUpdate cfg f expQ iteration beta p e st
  ({ space with agents := res.1.agents }, res.1, res.2)

theorem baAgentStep_tookWalk (cfg : BAConfig) (f : List ℚ → ℚ)
    (expQ : ℚ → ℚ) (iteration : ℕ) (beta p e meanLoudness : ℚ)
    (localBest agent : Agent) (vel_i : List ℚ) (loud_i pulse_i : ℚ) :
    (baAgentStep cfg f expQ iteration beta p e meanLoudness localBest agent
        vel_i loud_i pulse_i).tookWalk = decide (pulse_i < p) := rfl

theorem baUpdateFrom_no_walk (cfg : BAConfig) (f : List ℚ → ℚ)
    (expQ : ℚ → ℚ) (iteration : ℕ) (beta p e : ℕ → ℚ)
    (hp : ∀ j, p j ≤ 1) :
    ∀ (n i : ℕ) (st : BAState) (walks : List Bool),
      i + n = st.agents.length →
      st.velocity.length = st.agents.length →
      st.loudness.length = st.agents.length →
      st.pulse_rate.length = st.agents.length →
      (∀ k, i ≤ k → k < st.agents.length → st.pulse_rate[k]? = some 1) →
      (baUpdateFrom cfg f expQ iteration beta p e st walks i n).2 =
        walks ++ List.replicate n false := by
  intro n
  induction n with
  | zero =>
    intro i st walks _ _ _ _ _
    simp [baUpdateFrom]
  | succ m ih =>
    intro i st walks hlen hv hl hpr hone
    have hi : i < st.agents.length := by omega
    have hiv : i < st.velocity.length := by omega
    have hil : i < st.loudness.length := by omega
    have hip : i < st.pulse_rate.length := by omega
    have hagent : st.agents[i]? = some st.agents[i] :=
      List.getElem?_eq_getElem hi
    have hvel : st.velocity[i]? = some st.velocity[i] :=
      List.getElem?_eq_getElem hiv
    have hloud : st.loudness[i]? = some st.loudness[i] :=
      List.getElem?_eq_getElem hil
    have hpulse : st.pulse_rate[i]? = some 1 := hone i le_rfl hi
    rw [baUpdateFrom]
    have hstep : baIndexStep cfg f expQ iteration beta p e st i =
        (let out := baAgentStep cfg f expQ iteration (beta i) (p i) (e i)
            (meanQ st.loudness) st.localBest st.agents[i] st.velocity[i]
            st.loudness[i] 1
         ({ agents := st.agents.set i out.agent,
            frequency := st.frequency.set i out.frequency,
            velocity := st.velocity.set i out.velocity,
            loudness := st.loudness.set i out.loudness,
            pulse_rate := st.pulse_rate.set i out.pulse_rate,
            localBest := out.localBest }, some out.tookWalk)) := by
      unfold baIndexStep
      rw [hagent, hvel, hloud, hpulse]
    rw [hstep]
    dsimp only
    rw [baAgentStep_tookWalk]
    have hwalk : decide ((1 : ℚ) < p i) = false := by
      simp only [decide_eq_false_iff_not, not_lt]
      exact hp i
    rw [hwalk]
    simp only [Option.toList_some]
    rw [ih (i + 1) _ (walks ++ [false]) (by simp; omega)
      (by simpa using hv) (by simpa using hl) (by simpa using hpr)
      ?invariant]
    · simp [List.replicate_succ]
    case invariant =>
      intro k hk hk2
      simp only [List.length_set] at hk2
      have hne : i ≠ k := by omega
      simp only [List.getElem?_set_ne hne]
      exact hone k (by omega) hk2

/-- C8.  In `BA.update`, when `pulse_rate[i] = 1.0` for every agent and
every uniform draw satisfies `p ≤ 1`, the local-random-walk branch (taken
when `p > pulse_rate[i]`) is never executed for any agent, whatever the
iteration index and the frequency and position draws: the walk flags of the
whole pass are all false. -/
theorem C8_pulse_rate_one_never_walks (cfg : BAConfig) (f : List ℚ → ℚ)
    (expQ : ℚ → ℚ) (iteration : ℕ) (beta p e : ℕ → ℚ) (st : BAState)
    (hvel : st.velocity.length = st.agents.length)
    (hloud : st.loudness.length = st.agents.length)
    (hpulse : st.pulse_rate = List.replicate st.agents.length 1)
    (hp : ∀ j, p j ≤ 1) :
    (baUpdate cfg f expQ iteration beta p e st).2 =
      List.replicate st.agents.length false := by
  unfold baUpdate
  rw [baUpdateFrom_no_walk cfg f expQ iteration beta p e hp
    st.agents.length 0 st [] (by omega) hvel hloud
    (by rw [hpulse]; simp)
    (by intro k _ hk; rw [hpulse]; simp [List.getElem?_replicate, hk])]
  simp

/-- Witness for C8: a single agent with pulse rate `1` and the uniform
draw fixed at `1/2` produces the all-false walk-flag list. -/
theorem C8_witness :
    (baUpdate {} (fun _ => 0) (fun x => x) 0 (fun _ => 1/2) (fun _ => 1/2)
        (fun _ => 1/2)
        { agents := [⟨[0], 5, [-10], [10]⟩], frequency := [1],
          velocity := [[0]], loudness := [1/2], pulse_rate := [1],
          localBest := ⟨[3], 7, [-10], [10]⟩ }).2 = [false] := by
  have h := C8_pulse_rate_one_never_walks {} (fun _ => 0) (fun x => x) 0
    (fun _ => 1/2) (fun _ => 1/2) (fun _ => 1/2)
    { agents := [⟨[0], 5, [-10], [10]⟩], frequency := [1],
      velocity := [[0]], loudness := [1/2], pulse_rate := [1],
      localBest := ⟨[3], 7, [-10], [10]⟩ }
    rfl rfl (by simp [List.replicate_succ]) (fun j => by norm_num)
  simpa using h

/-- C9.  `BA.update` never mutates the caller's best agent: the space
object returned by the update call keeps its `best_agent` untouched, the
deep-copy replacement in the improvement branch rebinds only the local
best (which is returned as the step's `localBest`, threaded into later
agents), and that branch writes only the agent's `pulse_rate[i]` and
`loudness[i]` entries; outside the branch the local best, loudness and
pulse rate are all left unchanged. -/
theorem C9_ba_update_keeps_callers_best (cfg : BAConfig) (f : List ℚ → ℚ)
    (expQ : ℚ → ℚ) (iteration : ℕ) (beta p e : ℕ → ℚ) (space : Space)
    (frequency : List ℚ) (velocity : List (List ℚ))
    (loudness pulse_rate : List ℚ) (b pp ee meanL : ℚ)
    (localBest agent : Agent) (vel_i : List ℚ) (loud_i pulse_i : ℚ) :
    ((ba_update_on_space cfg f expQ iteration beta p e space frequency
        velocity loudness pulse_rate).1.best_agent = space.best_agent) ∧
    (pp < loud_i →
      (baAgentStep cfg f expQ iteration b pp ee meanL localBest agent
          vel_i loud_i pulse_i).agent.fit < localBest.fit →
      (baAgentStep cfg f expQ iteration b pp ee meanL localBest agent
          vel_i loud_i pulse_i).localBest =
        (baAgentStep cfg f expQ iteration b pp ee meanL localBest agent
          vel_i loud_i pulse_i).agent ∧
      (baAgentStep cfg f expQ iteration b pp ee meanL localBest agent
          vel_i loud_i pulse_i).loudness = cfg.A * (9 / 10) ∧
      (baAgentStep cfg f expQ iteration b pp ee meanL localBest agent
          vel_i loud_i pulse_i).pulse_rate =
        cfg.r * (1 - expQ (-(9 / 10 * iteration)))) ∧
    (¬ (pp < loud_i ∧
        (baAgentStep cfg f expQ iteration b pp ee meanL localBest agent
          vel_i loud_i pulse_i).agent.fit < localBest.fit) →
      (baAgentStep cfg f expQ iteration b pp ee meanL localBest agent
          vel_i loud_i pulse_i).localBest = localBest ∧
      (baAgentStep cfg f expQ iteration b pp ee meanL localBest agent
          vel_i loud_i pulse_i).loudness = loud_i ∧
      (baAgentStep cfg f expQ iteration b pp ee meanL localBest agent
          vel_i loud_i pulse_i).pulse_rate = pulse_i) := by
  refine ⟨rfl, ?_, ?_⟩
  · intro H1 H2
    unfold baAgentStep at H2 ⊢
    dsimp only at H2 ⊢
    exact ⟨by rw [if_pos ⟨H1, H2⟩], by rw [if_pos ⟨H1, H2⟩],
      by rw [if_pos ⟨H1, H2⟩]⟩
  · intro H
    unfold baAgentStep at H ⊢
    dsimp only at H ⊢
    exact ⟨by rw [if_neg H], by rw [if_neg H], by rw [if_neg H]⟩

/-- Witness for C9: a concrete improvement step (uniform draw `1/2` below
loudness `1`, constant objective `0` beating the local best fit `100`)
rebinds the local best to the evaluated agent and writes the two
schedules. -/
theorem C9_witness :
    (baAgentStep {} (fun _ => 0) (fun x => x) 0 0 (1/2) 0 (1/2)
        ⟨[5], 100, [-10], [10]⟩ ⟨[0], 0, [-10], [10]⟩ [0] 1 (1/2)).localBest =
      (baAgentStep {} (fun _ => 0) (fun x => x) 0 0 (1/2) 0 (1/2)
        ⟨[5], 100, [-10], [10]⟩ ⟨[0], 0, [-10], [10]⟩ [0] 1 (1/2)).agent ∧
    (baAgentStep {} (fun _ => 0) (fun x => x) 0 0 (1/2) 0 (1/2)
        ⟨[5], 100, [-10], [10]⟩ ⟨[0], 0, [-10], [10]⟩ [0] 1 (1/2)).loudness =
      (1/2 : ℚ) * (9/10) ∧
    (baAgentStep {} (fun _ => 0) (fun x => x) 0 0 (1/2) 0 (1/2)
        ⟨[5], 100, [-10], [10]⟩ ⟨[0], 0, [-10], [10]⟩ [0] 1 (1/2)).pulse_rate =
      (1/2 : ℚ) * (1 - (fun x : ℚ => x) (-(9/10 * (0 : ℕ)))) := by
  have h := (C9_ba_update_keeps_callers_best {} (fun _ => 0) (fun x => x) 0
    (fun _ => 0) (fun _ => 0) (fun _ => 0)
    { agents := [], best_agent := ⟨[0], 0, [], []⟩ } [] [] [] []
    0 (1/2) 0 (1/2) ⟨[5], 100, [-10], [10]⟩ ⟨[0], 0, [-10], [10]⟩ [0] 1
    (1/2)).2.1 (by norm_num) (by
      norm_num [baAgentStep, Agent.clip_by_bound, clipVec, addVec, subVec,
        smulVec, update_frequency])
  exact h

/-! ## The run loops and the `self._update` dispatch
(optimizer.py lines 103-114, gsa.py lines 183-231, ba.py lines 245-296,
sbo.py lines 154-202) -/

/-- The method and property names defined by the `Optimizer` class body
(optimizer.py). -/
def optimizerMethods : List String :=
  ["__init__", "algorithm", "hyperparams", "built", "_build", "_update",
   "_evaluate", "run"]

/-- The method and property names defined by the `GSA` class body
(gsa.py): the per-iteration update is named `update`, not `_update`. -/
def gsaMethods : List String :=
  ["__init__", "G", "_calculate_mass", "_calculate_force",
   "_update_velocity", "_update_position", "update", "run"]

/-- The method and property names defined by the `BA` class body (ba.py). -/
def baMethods : List String :=
  ["__init__", "f_min", "f_max", "A", "r", "_update_frequency",
   "_update_velocity", "_update_position", "update", "run"]

/-- The method and property names defined by the `SBO` class body
(sbo.py). -/
def sboMethods : List String :=
  ["__init__", "alpha", "p_mutation", "z", "update", "run"]

/-- Python attribute lookup along a method resolution order: the first
class defining the name provides the method. -/
def resolveAttr : List (String × List String) → String → Option String
  | [], _ => none
  | (cls, ms) :: rest, name =>
    if name ∈ ms then some (cls ++ "." ++ name) else resolveAttr rest name

/-- Method resolution order of `GSA` (it inherits directly from
`Optimizer`). -/
def gsaMRO : List (String × List String) :=
  [("GSA", gsaMethods), ("Optimizer", optimizerMethods)]

/-- Method resolution order of `BA`. -/
def baMRO : List (String × List String) :=
  [("BA", baMethods), ("Optimizer", optimizerMethods)]

/-- Method resolution order of `SBO`. -/
def sboMRO : List (String × List String) :=
  [("SBO", sboMethods), ("Optimizer", optimizerMethods)]

/-- A call to whatever `self._update` resolves to, with `argc` positional
arguments after `self`.  `Optimizer._update` (optimizer.py lines 103-114)
accepts no argument besides `self` and raises `NotImplementedError`; a
call passing positional arguments to it raises a `TypeError` before the
body runs.  A resolution to a subclass `_update` override would run it
(`.ok ()`) — but none of the three subclasses defines `_update`. -/
def dispatchUpdateCall (mro : List (String × List String)) (argc : ℕ) :
    Except PyErr Unit :=
  match resolveAttr mro "_update" with
  | some target =>
    if target = "Optimizer._update" then
      if argc = 0 then .error .notImplementedError
      else .error (.typeError
        "_update() takes 1 positional argument but more were given")
    else .ok ()
  | none => .error (.attributeError "_update")

/-- Modelled from the spec: one History snapshot (`utils/history.py` is
not under `src/`) — either the full population's (position copy, fit)
pairs, or only the best agent's. -/
inductive Snapshot where
  | full (states : List (List ℚ × ℚ))
  | bestOnly (position : List ℚ) (fit : ℚ)
deriving Repr, DecidableEq

/-- Modelled from the spec: `History.dump` appends exactly one snapshot
per call, its shape governed by the `store_best_only` flag fixed at
construction. -/
def historyDump (store_best_only : Bool) (agents : List Agent)
    (best : Agent) : Snapshot :=
  if store_best_only then .bestOnly best.position best.fit
  else .full (agents.map (fun a => (a.position, a.fit)))

/-- Modelled from the spec: `space.clip_by_bound()` clamps every agent's
position into its bounds. -/
def spaceClip (space : Space) : Space :=
  { space with agents := space.agents.map Agent.clip_by_bound }

/-- `self._evaluate(space, function, hook=pre_evaluate)` acting on the
space: the population's fits are refreshed and the best agent updated. -/
def spaceEvaluate (f : List ℚ → ℚ) (space : Space) : Space :=
  let res := evaluateAgents f space.agents space.best_agent
  { space with agents := res.1, best_agent := res.2 }

/-- The state threaded through the `GSA.run` loop. -/
structure GSARunState where
  space : Space
  velocity : List (List ℚ)
  history : List Snapshot

/-- The loop body of `GSA.run` (gsa.py lines 209-228).  The UPDATE step is
the call `self._update(space.agents, velocity, t)` (3 positional
arguments), which goes through attribute dispatch; only if that call
returned would the loop clip, re-evaluate and dump one snapshot.
`updateFn` stands for the effect the resolved update would have on the
agents and velocities — the loop structure (and this claim) does not
depend on its numeric content. -/
def gsaIterationBody
    (updateFn : List Agent → List (List ℚ) → ℕ → List Agent × List (List ℚ))
    (f : List ℚ → ℚ) (store_best_only : Bool) (st : GSARunState) (t : ℕ) :
    Except PyErr GSARunState :=
  match dispatchUpdateCall gsaMRO 3 with
  | .error err => .error err
  | .ok _ =>
    let upd := updateFn st.space.agents st.velocity t
    let space := spaceClip { st.space with agents := upd.1 }
    let space := spaceEvaluate f space
    .ok { space := space, velocity := upd.2,
          history := st.history ++
            [historyDump store_best_only space.agents space.best_agent] }

/-- `for t in range(space.n_iterations)` of `GSA.run`: runs the loop body
`n` more times starting at iteration index `t`, propagating the first
uncaught exception. -/
def gsaRunLoop
    (updateFn : List Agent → List (List ℚ) → ℕ → List Agent × List (List ℚ))
    (f : List ℚ → ℚ) (store_best_only : Bool) :
    GSARunState → ℕ → ℕ → Except PyErr GSARunState
  | st, _, 0 => .ok st
  | st, t, n + 1 =>
    match gsaIterationBody updateFn f store_best_only st t with
    | .error err => .error err
    | .ok st => gsaRunLoop updateFn f store_best_only st (t + 1) n

/-- `GSA.run` (gsa.py lines 183-231): allocate the zero velocity array of
shape `n_agents × n_variables × n_dimensions`, evaluate the initial
population, create an empty History, run the iteration loop, and return
the accumulated history. -/
def gsaRun
    (updateFn : List Agent → List (List ℚ) → ℕ → List Agent × List (List ℚ))
    (f : List ℚ → ℚ) (space : Space) (store_best_only : Bool) :
    Except PyErr (List Snapshot) :=
  let velocity := List.replicate space.n_agents
    (List.replicate (space.n_variables * space.n_dimensions) 0)
  let evaluated := spaceEvaluate f space
  match gsaRunLoop updateFn f store_best_only
      { space := evaluated, velocity := velocity, history := [] } 0
      space.n_iterations with
  | .error err => .error err
  | .ok st => .ok st.history

/-- The objective `f(x) = sum of squares` used for the concrete runs. -/
def squareSum (p : List ℚ) : ℚ := (p.map (fun x => x * x)).sum

/-- A concrete two-agent space with bounds `[-10, 10]` and the given
iteration budget. -/
def gsaExampleSpace (n : ℕ) : Space :=
  { agents := [⟨[1], 0, [-10], [10]⟩, ⟨[2], 0, [-10], [10]⟩],
    best_agent := ⟨[0], 10000000000, [-10], [10]⟩,
    n_agents := 2, n_variables := 1, n_dimensions := 1,
    n_iterations := n, lb := [-10], ub := [10] }

/-- C2 (the code contradicts the claim).  The run loop is meant to execute
update, clip, re-evaluate and one dump per iteration, returning a History
of exactly `n_iterations` snapshots.  But the UPDATE step's dispatch
resolves `self._update` to the abstract base's no-argument `_update`, so
the very first loop iteration raises a `TypeError` and no History is
returned, whatever the concrete update would have computed; only the
degenerate `n_iterations = 0` case (no loop iterations after the single
initial evaluation, empty History) behaves as claimed. -/
theorem C2_run_loop_raises_before_first_dump
    (updateFn : List Agent → List (List ℚ) → ℕ → List Agent × List (List ℚ))
    (store_best_only : Bool) :
    (gsaRun updateFn squareSum (gsaExampleSpace 1) store_best_only =
      .error (.typeError
        "_update() takes 1 positional argument but more were given")) ∧
    (gsaRun updateFn squareSum (gsaExampleSpace 0) store_best_only =
      .ok []) := by
  exact ⟨rfl, rfl⟩

/-- C3 (the code contradicts the claim).  In every concrete algorithm's
run loop the UPDATE step calls `self._update(...)`.  Attribute resolution
finds `_update` only on the abstract base — each subclass defines `update`
instead — and the call (3, 8 and 4 positional arguments for GSA, BA and
SBO respectively, against a method accepting none) raises a `TypeError`,
so the subclass's own update is never invoked by the loop. -/
theorem C3_run_update_dispatch_hits_base :
    resolveAttr gsaMRO "_update" = some "Optimizer._update" ∧
    resolveAttr baMRO "_update" = some "Optimizer._update" ∧
    resolveAttr sboMRO "_update" = some "Optimizer._update" ∧
    ("update" ∈ gsaMethods ∧ "update" ∈ baMethods ∧ "update" ∈ sboMethods) ∧
    ("_update" ∉ gsaMethods ∧ "_update" ∉ baMethods ∧
      "_update" ∉ sboMethods) ∧
    dispatchUpdateCall gsaMRO 3 = .error (.typeError
      "_update() takes 1 positional argument but more were given") ∧
    dispatchUpdateCall baMRO 8 = .error (.typeError
      "_update() takes 1 positional argument but more were given") ∧
    dispatchUpdateCall sboMRO 4 = .error (.typeError
      "_update() takes 1 positional argument but more were given") := by
  refine ⟨rfl, rfl, rfl, ⟨?_, ?_, ?_⟩, ⟨?_, ?_, ?_⟩, rfl, rfl, rfl⟩ <;>
    decide

end Opyt
